import Mathlib

/-!
# Step sequencing: the entrypoint wrapper, the runner, the chain builder

A shallow embedding of `pkg/entrypoint/entrypointer.go` and
`cmd/entrypoint/runner.go`, together with specification-level models of the
container-chain builder and the sidecar stopper that `pkg/pod/entrypoint_test.go`
exercises.

Go `error` values are `Option GoError` (`none` is `nil`).  The three
collaborators of an `Entrypointer` (Waiter, Runner, Writer) are arbitrary
deterministic objects: each answer may depend on the whole history of calls
made so far, which is passed to them explicitly.  `log.Fatalf` ends the
process; an execution therefore finishes either by returning an error value or
by a fatal exit.
-/

namespace Tekton

/-! ## Errors, events, executions -/

/-- Go error values that the code distinguishes or passes through. -/
inductive GoError where
  /-- The sentinel `context.Canceled`. -/
  | canceled : GoError
  /-- An `*exec.ExitError` carrying a non-zero exit status. -/
  | exitStatus (code : Nat) : GoError
  /-- An `*exec.ExitError` of a child ended by the kill signal. -/
  | signalKilled : GoError
  /-- Any other error value. -/
  | other (msg : String) : GoError
  deriving DecidableEq, Repr

/-- One call made by `Entrypointer.Go` to a collaborator, with the answer it
received. -/
inductive Event where
  /-- The call `Waiter.Wait(file, expectContent)`. -/
  | wait (file : String) (expectContent : Bool) (res : Option GoError) : Event
  /-- The call `Writer.Write(file)`. -/
  | write (file : String) (res : Option GoError) : Event
  /-- The call `Runner.Run(args...)`. -/
  | run (args : List String) (res : Option GoError) : Event
  deriving DecidableEq, Repr

/-- How the process running `Go` ends. -/
inductive Exit where
  /-- The function `Go` returned this error value. -/
  | returned (err : Option GoError) : Exit
  /-- The process was ended by `log.Fatalf`. -/
  | fatal : Exit
  deriving DecidableEq, Repr

/-- A finished execution: how it ended and the calls it made, oldest first. -/
structure Execution where
  exit : Exit
  trace : List Event
  deriving DecidableEq, Repr

/-- Entrypointer holds fields for running commands with redirected
entrypoints.  The collaborators receive the history of earlier calls. -/
structure Entrypointer where
  Entrypoint : String
  Args : List String
  WaitFiles : List String
  WaitFileContent : Bool
  PostFile : String
  StartFile : String
  Waiter : List Event → String → Bool → Option GoError
  Runner : List Event → List String → Option GoError
  Writer : List Event → String → Option GoError

/-! ## `Entrypointer.WritePostFile` and `Entrypointer.Go` -/

/-- The path `WritePostFile` writes to: `postFile` gains the suffix `.err` when
`err != nil && postFile != ""`. -/
def postPath (postFile : String) (err : Option GoError) : String :=
  if err ≠ none ∧ postFile ≠ "" then postFile ++ ".err" else postFile

/-- The method `WritePostFile(postFile, err)`, started after the calls `h`.
Returns whether `log.Fatalf` was reached, and the calls made so far. -/
def Entrypointer.WritePostFile (e : Entrypointer) (postFile : String)
    (err : Option GoError) (h : List Event) : Bool × List Event :=
  let postFile := postPath postFile err
  if postFile ≠ "" then
    match e.Writer h postFile with
    | some werr => (true, h ++ [Event.write postFile (some werr)])
    | none => (false, h ++ [Event.write postFile none])
  else (false, h)

/-- The tail of `Go` from the call of the runner on: build the argument vector,
run, write the post file no matter what, return the runner's error. -/
def Entrypointer.goRun (e : Entrypointer) (h : List Event) : Execution :=
  let args := if e.Entrypoint ≠ "" then e.Entrypoint :: e.Args else e.Args
  let err := e.Runner h args
  let h1 := h ++ [Event.run args err]
  match e.WritePostFile e.PostFile err h1 with
  | (true, h2) => ⟨Exit.fatal, h2⟩
  | (false, h2) => ⟨Exit.returned err, h2⟩

/-- The part of `Go` after the wait loop: the optional start file, then the
run. -/
def Entrypointer.goStart (e : Entrypointer) (h : List Event) : Execution :=
  if e.StartFile ≠ "" then
    match e.Writer h e.StartFile with
    | some werr => ⟨Exit.fatal, h ++ [Event.write e.StartFile (some werr)]⟩
    | none => e.goRun (h ++ [Event.write e.StartFile none])
  else e.goRun h

/-- The wait loop of `Go` over the remaining wait files, followed by the rest
of the function when the loop runs to its end. -/
def Entrypointer.goFrom (e : Entrypointer) : List String → List Event → Execution
  | [], h => e.goStart h
  | f :: fs, h =>
    match e.Waiter h f e.WaitFileContent with
    | some err =>
      let h1 := h ++ [Event.wait f e.WaitFileContent (some err)]
      match e.WritePostFile e.PostFile (some err) h1 with
      | (true, h2) => ⟨Exit.fatal, h2⟩
      | (false, h2) => ⟨Exit.returned (some err), h2⟩
    | none => e.goFrom fs (h ++ [Event.wait f e.WaitFileContent none])

/-- Go optionally waits for files, runs the command, and writes a post file. -/
def Entrypointer.Go (e : Entrypointer) : Execution :=
  e.goFrom e.WaitFiles []

/-! ## Vocabulary for statements about executions -/

/-- The event is a call of `Waiter.Wait` that returned an error. -/
def Event.isFailedWait : Event → Bool
  | Event.wait _ _ (some _) => true
  | _ => false

/-- The event is a call of `Writer.Write` that returned an error. -/
def Event.isFailedWrite : Event → Bool
  | Event.write _ (some _) => true
  | _ => false

/-- The event is a call of `Runner.Run`. -/
def Event.isRun : Event → Bool
  | Event.run _ _ => true
  | _ => false

/-- Every call of `Waiter.Wait` that `Go` makes returns nil. -/
def AllWaitsSucceed (e : Entrypointer) : Prop :=
  ∀ ev ∈ e.Go.trace, ev.isFailedWait = false

/-- Every call of `Writer.Write` that `Go` makes returns nil. -/
def AllWritesSucceed (e : Entrypointer) : Prop :=
  ∀ ev ∈ e.Go.trace, ev.isFailedWrite = false

/-- The start-file step does not end the process: no start file is configured,
or a write of it returned nil. -/
def StartWriteSucceeds (e : Entrypointer) : Prop :=
  e.StartFile = "" ∨ Event.write e.StartFile none ∈ e.Go.trace

instance (e : Entrypointer) : Decidable (AllWaitsSucceed e) := by
  unfold AllWaitsSucceed; infer_instance

instance (e : Entrypointer) : Decidable (AllWritesSucceed e) := by
  unfold AllWritesSucceed; infer_instance

instance (e : Entrypointer) : Decidable (StartWriteSucceeds e) := by
  unfold StartWriteSucceeds; infer_instance

/-- The successful wait calls for a list of wait files. -/
def okWaits (e : Entrypointer) (fs : List String) : List Event :=
  fs.map (fun f => Event.wait f e.WaitFileContent none)

/-- The argument vector `Go` passes to the runner. -/
def runArgs (e : Entrypointer) : List String :=
  if e.Entrypoint ≠ "" then e.Entrypoint :: e.Args else e.Args

/-- The calls `WritePostFile(e.PostFile, err)` makes when the writer answers
`w`: none when no post file is configured, else one write. -/
def postWrites (e : Entrypointer) (err w : Option GoError) : List Event :=
  if postPath e.PostFile err ≠ "" then [Event.write (postPath e.PostFile err) w] else []

/-- How an execution ends after `WritePostFile` when the writer answered `w`. -/
def postExit (e : Entrypointer) (err w : Option GoError) : Exit :=
  if postPath e.PostFile err ≠ "" ∧ w ≠ none then Exit.fatal else Exit.returned err

/-- The calls of the start-file step when it succeeds. -/
def startWrites (e : Entrypointer) : List Event :=
  if e.StartFile ≠ "" then [Event.write e.StartFile none] else []

/-! ## The shape of every execution of `Go` -/

/-- Execution stopped by a failed wait on `f`, after the wait files `pre`. -/
def WaitFailure (e : Entrypointer) (x : Execution) : Prop :=
  ∃ pre f suf err w, e.WaitFiles = pre ++ f :: suf ∧
    e.Waiter (okWaits e pre) f e.WaitFileContent = some err ∧
    x = ⟨postExit e (some err) w,
      okWaits e pre ++ Event.wait f e.WaitFileContent (some err) :: postWrites e (some err) w⟩

/-- Execution ended by `log.Fatalf` in the start-file step. -/
def StartFailure (e : Entrypointer) (x : Execution) : Prop :=
  e.StartFile ≠ "" ∧ ∃ werr, e.Writer (okWaits e e.WaitFiles) e.StartFile = some werr ∧
    x = ⟨Exit.fatal, okWaits e e.WaitFiles ++ [Event.write e.StartFile (some werr)]⟩

/-- Execution that reached the runner. -/
def RunReached (e : Entrypointer) (x : Execution) : Prop :=
  ∃ r w, e.Runner (okWaits e e.WaitFiles ++ startWrites e) (runArgs e) = r ∧
    x = ⟨postExit e r w,
      okWaits e e.WaitFiles ++ startWrites e ++ Event.run (runArgs e) r :: postWrites e r w⟩

/-! ## Concrete collaborators and Entrypointers -/

/-- A Waiter whose every wait succeeds. -/
def okWaiter : List Event → String → Bool → Option GoError := fun _ _ _ => none

/-- A Waiter whose every wait is cancelled. -/
def failingWaiter : List Event → String → Bool → Option GoError :=
  fun _ _ _ => some (GoError.other "wait cancelled")

/-- A Runner whose command exits cleanly. -/
def okRunner : List Event → List String → Option GoError := fun _ _ => none

/-- A Runner whose command exits with status 1. -/
def failingRunner : List Event → List String → Option GoError :=
  fun _ _ => some (GoError.exitStatus 1)

/-- A Writer whose every write succeeds. -/
def okWriter : List Event → String → Option GoError := fun _ _ => none

/-- A Writer whose every write fails. -/
def failingWriter : List Event → String → Option GoError :=
  fun _ _ => some (GoError.other "read-only file system")

/-- Second step of a chain, whose command fails. -/
def failingStep : Entrypointer :=
  { Entrypoint := "cmd", Args := ["arg1", "arg2"], WaitFiles := ["/tekton/tools/0"],
    WaitFileContent := false, PostFile := "/tekton/tools/1", StartFile := "",
    Waiter := okWaiter, Runner := failingRunner, Writer := okWriter }

/-- A step whose wait is cancelled and whose post file cannot be written. -/
def cancelledStepReadOnly : Entrypointer :=
  { Entrypoint := "cmd", Args := [], WaitFiles := ["/tekton/tools/0", "/tekton/tools/x"],
    WaitFileContent := false, PostFile := "/tekton/tools/1", StartFile := "",
    Waiter := failingWaiter, Runner := okRunner, Writer := failingWriter }

/-- A step whose wait is cancelled, on a writable tools volume. -/
def cancelledStep : Entrypointer :=
  { Entrypoint := "cmd", Args := [], WaitFiles := ["/tekton/tools/0", "/tekton/tools/x"],
    WaitFileContent := false, PostFile := "/tekton/tools/1", StartFile := "",
    Waiter := failingWaiter, Runner := okRunner, Writer := okWriter }

/-- A step with a failing command on a writable tools volume, no start file. -/
def plainFailingStep : Entrypointer :=
  { Entrypoint := "cmd", Args := ["arg1"], WaitFiles := ["/tekton/downward/ready"],
    WaitFileContent := true, PostFile := "/tekton/tools/0", StartFile := "",
    Waiter := okWaiter, Runner := failingRunner, Writer := okWriter }

/-- First step of a chain with a start file. -/
def firstStep : Entrypointer :=
  { Entrypoint := "cmd", Args := ["arg1"], WaitFiles := ["/tekton/downward/ready"],
    WaitFileContent := true, PostFile := "/tekton/tools/0", StartFile := "/tekton/tools/start",
    Waiter := okWaiter, Runner := okRunner, Writer := okWriter }

/-- A step with a start file on a tools volume that cannot be written. -/
def startOnReadOnly : Entrypointer :=
  { Entrypoint := "cmd", Args := ["arg1"], WaitFiles := [],
    WaitFileContent := false, PostFile := "/tekton/tools/0", StartFile := "/tekton/tools/start",
    Waiter := okWaiter, Runner := okRunner, Writer := failingWriter }

/-- A step with an entrypoint and arguments, no start file. -/
def echoStep : Entrypointer :=
  { Entrypoint := "echo", Args := ["hello", "world"], WaitFiles := ["/tekton/tools/0"],
    WaitFileContent := false, PostFile := "/tekton/tools/1", StartFile := "",
    Waiter := okWaiter, Runner := okRunner, Writer := okWriter }

/-! ## `realRunner.Run` -/

/-- A child process started by `exec.CommandContext(ctx, name, args...)`. -/
structure Spawn where
  name : String
  args : List String
  deriving DecidableEq, Repr

/-- What happens when `cmd.Run()` of `os/exec` runs a command built by
`exec.CommandContext(ctx, name, args...)`. -/
inductive CmdResult where
  /-- `Start` returned this error and no child was started: `ctx.Err()` when the
  context was already done, or the error of finding or forking the binary. -/
  | notStarted (err : GoError) : CmdResult
  /-- The child was started and ran to its own end with this exit status. -/
  | exited (status : Nat) : CmdResult
  /-- The child was started, the context became done while it ran, and
  `os/exec` killed it. -/
  | killedByContext : CmdResult
  deriving DecidableEq, Repr

/-- Whether a child process was started. -/
def CmdResult.started : CmdResult → Bool
  | CmdResult.notStarted _ => false
  | CmdResult.exited _ => true
  | CmdResult.killedByContext => true

/-- The error value `cmd.Run()` returns: the error of `Start` when no child was
started, nil for exit status 0, and an `*exec.ExitError` for a child that exited
with another status or was ended by a signal. -/
def CmdResult.err : CmdResult → Option GoError
  | CmdResult.notStarted err => some err
  | CmdResult.exited 0 => none
  | CmdResult.exited (n + 1) => some (GoError.exitStatus (n + 1))
  | CmdResult.killedByContext => some GoError.signalKilled

/-- The method `realRunner.Run`.  The parameter `cmdRun name args` is what
`os/exec` does with the command built by `exec.CommandContext(ctx, name,
args...)` (the context acts only through it).  Returns the error value and the
child processes started. -/
def realRunner.Run (cmdRun : String → List String → CmdResult)
    (args : List String) : Option GoError × List Spawn :=
  match args with
  | [] => (none, [])
  | name :: args =>
    let res := cmdRun name args
    let children : List Spawn := if res.started then [⟨name, args⟩] else []
    match res.err with
    | some GoError.canceled => (none, children)
    | some err => (some err, children)
    | none => (none, children)

/-- An Entrypointer whose Runner is the `realRunner`. -/
def Entrypointer.withRealRunner (e : Entrypointer)
    (cmdRun : String → List String → CmdResult) : Entrypointer :=
  { e with Runner := fun _ args => (realRunner.Run cmdRun args).1 }

/-- The child processes the `realRunner` starts over the `Runner.Run` calls of
a trace. -/
def spawnedBy (cmdRun : String → List String → CmdResult) : List Event → List Spawn
  | [] => []
  | Event.run args _ :: tr => (realRunner.Run cmdRun args).2 ++ spawnedBy cmdRun tr
  | Event.wait _ _ _ :: tr => spawnedBy cmdRun tr
  | Event.write _ _ :: tr => spawnedBy cmdRun tr

/-- A command that exits with status 1. -/
def exitOne : String → List String → CmdResult := fun _ _ => CmdResult.exited 1

/-- A command that exits cleanly. -/
def exitZero : String → List String → CmdResult := fun _ _ => CmdResult.exited 0

/-- A command that is never started because the context is already cancelled. -/
def cancelledBeforeStart : String → List String → CmdResult :=
  fun _ _ => CmdResult.notStarted GoError.canceled

/-- A command that is started and then killed because the context is cancelled
while it runs. -/
def cancelledWhileRunning : String → List String → CmdResult :=
  fun _ _ => CmdResult.killedByContext

/-- A command whose binary does not exist. -/
def notFound : String → List String → CmdResult :=
  fun _ _ => CmdResult.notStarted (GoError.other "executable file not found in $PATH")

/-- No Entrypoint configured, but Args holds a command line. -/
def argsOnlyStep : Entrypointer :=
  Entrypointer.withRealRunner
    { Entrypoint := "", Args := ["false", "x"], WaitFiles := ["/tekton/tools/0"],
      WaitFileContent := false, PostFile := "/tekton/tools/1", StartFile := "",
      Waiter := okWaiter, Runner := okRunner, Writer := okWriter } exitOne

/-- No Entrypoint and no Args, on a tools volume that cannot be written. -/
def placeholderReadOnly : Entrypointer :=
  Entrypointer.withRealRunner
    { Entrypoint := "", Args := [], WaitFiles := ["/tekton/tools/0"],
      WaitFileContent := false, PostFile := "/tekton/tools/1", StartFile := "",
      Waiter := okWaiter, Runner := okRunner, Writer := failingWriter } exitOne

/-- No Entrypoint and no Args: a pure synchronisation step. -/
def placeholderStep : Entrypointer :=
  { Entrypoint := "", Args := [], WaitFiles := ["/tekton/tools/0"],
    WaitFileContent := false, PostFile := "/tekton/tools/1", StartFile := "",
    Waiter := okWaiter, Runner := okRunner, Writer := okWriter }

/-! ## Containers and the container-chain builder -/

/-- The fields of `corev1.VolumeMount` the builder uses. -/
structure VolumeMount where
  Name : String
  MountPath : String
  deriving DecidableEq, Repr

/-- The fields of `corev1.EnvVar` the tests use. -/
structure EnvVar where
  Name : String
  Value : String
  deriving DecidableEq, Repr

/-- The fields of `corev1.Container` that the builder and the sidecar stopper
read or write. -/
structure Container where
  Name : String := ""
  Image : String := ""
  Command : List String := []
  Args : List String := []
  Env : List EnvVar := []
  VolumeMounts : List VolumeMount := []
  deriving DecidableEq, Repr

/-- Modelled from the spec: the package-level names of `pkg/pod` that the test
uses but the sources do not define (`entrypointBinary`, `toolsMount`,
`downwardMount`).  They are parameters of the builder. -/
structure Staging where
  entrypointBinary : String
  toolsMount : VolumeMount
  downwardMount : VolumeMount
  deriving DecidableEq, Repr

/-- The wait file of the first step: the readiness file of the downward
volume, as the test expects it. -/
def downwardReadyFile : String := "/tekton/downward/ready"

/-- The completion marker of step `i` in the tools directory, as the test
expects it: `/tekton/tools/i`. -/
def toolsFile (i : Nat) : String := "/tekton/tools/" ++ toString i

/-- Why the builder refuses a list of steps. -/
inductive BuildError where
  /-- The step at this index has an empty command. -/
  | emptyCommand (step : Nat) : BuildError
  deriving DecidableEq, Repr

/-- Modelled from the spec: the wait and post flags of step `i` (section 4.5;
the function `orderContainers` is not among the sources).  Step 0 waits on the
downward-readiness file and requires content; step `i > 0` waits on the post
file of step `i - 1`; every step posts `toolsDir/i`. -/
def waitPostFlags : Nat → List String
  | 0 => ["-wait_file", downwardReadyFile, "-wait_file_content", "-post_file", toolsFile 0]
  | i + 1 => ["-wait_file", toolsFile i, "-post_file", toolsFile (i + 1)]

/-- Modelled from the spec: the rewriting of step `i` (section 4.5).  The first
element of Command becomes the entrypoint, the remaining elements are put in
front of Args; Command becomes the staged entrypoint binary; the tools mount is
added to every step and the downward mount to step 0 only.  A step with an
empty command is refused. -/
def wrapStep (st : Staging) (i : Nat) (s : Container) : Except BuildError Container :=
  match s.Command with
  | [] => Except.error (BuildError.emptyCommand i)
  | c0 :: cs =>
    Except.ok { s with
      Command := [st.entrypointBinary]
      Args := waitPostFlags i ++ ["-entrypoint", c0, "--"] ++ (cs ++ s.Args)
      VolumeMounts := s.VolumeMounts ++ [st.toolsMount] ++
        (if i = 0 then [st.downwardMount] else []) }

/-- Modelled from the spec: the steps from index `i` on, rewritten in order; no
partial chain is produced when a step is refused. -/
def wrapSteps (st : Staging) : Nat → List Container → Except BuildError (List Container)
  | _, [] => Except.ok []
  | i, s :: rest =>
    match wrapStep st i s with
    | Except.error err => Except.error err
    | Except.ok w =>
      match wrapSteps st (i + 1) rest with
      | Except.error err => Except.error err
      | Except.ok ws => Except.ok (w :: ws)

/-- Modelled from the spec: the init container, which copies the entrypoint
binary from its own image into the tools volume (the expected value in
`TestOrderContainers`). -/
def toolsInit (st : Staging) (entrypointImage : String) : Container :=
  { Name := "place-tools", Image := entrypointImage,
    Command := ["cp", "/ko-app/entrypoint", st.entrypointBinary],
    VolumeMounts := [st.toolsMount] }

/-- Modelled from the spec: `orderContainers` / `BuildChain` (section 4.5; the
function is not among the sources, only its test).  Returns the init container
and the wrapped steps. -/
def orderContainers (st : Staging) (entrypointImage : String) (steps : List Container) :
    Except BuildError (Container × List Container) :=
  match wrapSteps st 0 steps with
  | Except.error err => Except.error err
  | Except.ok wrapped => Except.ok (toolsInit st entrypointImage, wrapped)

/-- The fields the entrypoint binary reads from its argument vector. -/
structure WrappedStep where
  waitFile : String := ""
  waitFileContent : Bool := false
  postFile : String := ""
  entrypoint : String := ""
  args : List String := []
  deriving DecidableEq, Repr

/-- Modelled from the spec: how the entrypoint binary reads its argument vector
(section 6, with the flag names of `TestOrderContainers`; the binary's flag
handling is not among the sources).  A path flag takes the next token as its
value, `-wait_file_content` takes none, and everything after the separator
`--` is the argument list, verbatim. -/
def parseFlags : List String → WrappedStep → Option WrappedStep
  | [], w => some w
  | tok :: rest, w =>
    if tok = "--" then some { w with args := rest }
    else if tok = "-wait_file_content" then parseFlags rest { w with waitFileContent := true }
    else
      match rest with
      | [] => none
      | v :: rest2 =>
        if tok = "-wait_file" then parseFlags rest2 { w with waitFile := v }
        else if tok = "-post_file" then parseFlags rest2 { w with postFile := v }
        else if tok = "-entrypoint" then parseFlags rest2 { w with entrypoint := v }
        else none

/-- The wrapped step a rewritten container encodes. -/
def Container.wrapped (c : Container) : Option WrappedStep := parseFlags c.Args {}

/-- The staging names used in the examples. -/
def tektonStaging : Staging :=
  { entrypointBinary := "/tekton/tools/entrypoint",
    toolsMount := ⟨"tekton-internal-tools", "/tekton/tools"⟩,
    downwardMount := ⟨"tekton-internal-downward", "/tekton/downward"⟩ }

/-- The pre-existing volume mount of `TestOrderContainers`. -/
def volumeMount : VolumeMount := ⟨"my-mount", "/mount/point"⟩

/-- The steps of `TestOrderContainers`. -/
def testSteps : List Container :=
  [ { Image := "step-1", Command := ["cmd"], Args := ["arg1", "arg2"] },
    { Image := "step-2", Command := ["cmd1", "cmd2", "cmd3"], Args := ["arg1", "arg2"],
      VolumeMounts := [volumeMount] },
    { Image := "step-3", Command := ["cmd"], Args := ["arg1", "arg2"] } ]

/-- The wrapped steps `TestOrderContainers` expects. -/
def testWant : List Container :=
  [ { Image := "step-1", Command := [tektonStaging.entrypointBinary],
      Args := ["-wait_file", "/tekton/downward/ready", "-wait_file_content",
        "-post_file", "/tekton/tools/0", "-entrypoint", "cmd", "--", "arg1", "arg2"],
      VolumeMounts := [tektonStaging.toolsMount, tektonStaging.downwardMount] },
    { Image := "step-2", Command := [tektonStaging.entrypointBinary],
      Args := ["-wait_file", "/tekton/tools/0", "-post_file", "/tekton/tools/1",
        "-entrypoint", "cmd1", "--", "cmd2", "cmd3", "arg1", "arg2"],
      VolumeMounts := [volumeMount, tektonStaging.toolsMount] },
    { Image := "step-3", Command := [tektonStaging.entrypointBinary],
      Args := ["-wait_file", "/tekton/tools/1", "-post_file", "/tekton/tools/2",
        "-entrypoint", "cmd", "--", "arg1", "arg2"],
      VolumeMounts := [tektonStaging.toolsMount] } ]

/-! ## Pods and the sidecar stopper -/

/-- The values of `corev1.PodPhase`. -/
inductive PodPhase where
  | Pending : PodPhase
  | Running : PodPhase
  | Succeeded : PodPhase
  | Failed : PodPhase
  | Unknown : PodPhase
  deriving DecidableEq, Repr

/-- Which members of `corev1.ContainerState` are set. -/
structure ContainerState where
  Waiting : Bool := false
  Running : Bool := false
  Terminated : Bool := false
  deriving DecidableEq, Repr

/-- The fields of `corev1.ContainerStatus` the stopper reads. -/
structure ContainerStatus where
  Name : String := ""
  State : ContainerState := {}
  deriving DecidableEq, Repr

/-- The fields of `corev1.Pod` the stopper reads: the containers of the spec,
the phase and the container statuses of the status. -/
structure Pod where
  Name : String := ""
  Containers : List Container := []
  Phase : PodPhase := PodPhase.Pending
  ContainerStatuses : List ContainerStatus := []
  deriving DecidableEq, Repr

/-- Modelled from the spec: the name prefix of sidecar containers (the constant
`sidecarPrefix` is used by the test but not defined in the sources). -/
def sidecarPrefix : String := "sidecar-"

/-- Modelled from the spec: the name prefix of step containers (the constant
`stepPrefix` is used by the test but not defined in the sources). -/
def stepPrefix : String := "step-"

/-- Modelled from the spec: a container is a sidecar by name convention
(section 3): its name starts with the sidecar prefix. -/
def IsContainerSidecar (name : String) : Bool :=
  sidecarPrefix.toList.isPrefixOf name.toList

/-- Modelled from the spec: the live status of the container named `name`
reports the Running sub-state. -/
def reportsRunning (pod : Pod) (name : String) : Bool :=
  pod.ContainerStatuses.any (fun st => st.Name == name && st.State.Running)

/-- Modelled from the spec: `StopSidecars` (section 4.6; the function is not
among the sources, only its test).  Acts only on a pod whose phase is Running;
there, every sidecar whose live status reports Running gets the no-op image, all
else untouched.  Returns the containers and whether any of them changed. -/
def StopSidecars (nopImage : String) (pod : Pod) : List Container × Bool :=
  if pod.Phase = PodPhase.Running then
    let updated := pod.Containers.map (fun c =>
      if IsContainerSidecar c.Name && reportsRunning pod c.Name then
        { c with Image := nopImage }
      else c)
    (updated, decide (updated ≠ pod.Containers))
  else (pod.Containers, false)

/-- The step container of `TestStopSidecars`. -/
def stepContainer : Container := { Name := stepPrefix ++ "my-step", Image := "foo" }

/-- The sidecar container of `TestStopSidecars`. -/
def sidecarContainer : Container :=
  { Name := sidecarPrefix ++ "my-sidecar", Image := "original-image",
    Command := ["my", "command"], Args := ["my", "args"], Env := [⟨"FOO", "bar"⟩] }

/-- The stopped sidecar `TestStopSidecars` expects. -/
def stoppedSidecarContainer : Container :=
  { Name := sidecarContainer.Name, Image := "nop-image",
    Command := ["my", "command"], Args := ["my", "args"], Env := [⟨"FOO", "bar"⟩] }

/-- The pod of the case "Running sidecar should be stopped". -/
def runningSidecarPod : Pod :=
  { Name := "test-pod", Containers := [stepContainer, sidecarContainer],
    Phase := PodPhase.Running,
    ContainerStatuses := [{}, { Name := sidecarContainer.Name, State := { Running := true } }] }

/-- The pod of the case "Pending Pod should not be updated". -/
def pendingPod : Pod :=
  { Name := "test-pod", Containers := [stepContainer, sidecarContainer],
    Phase := PodPhase.Pending }

/-- The pod of the case "Non-Running sidecar should not be stopped". -/
def waitingSidecarPod : Pod :=
  { Name := "test-pod", Containers := [stepContainer, sidecarContainer],
    Phase := PodPhase.Running,
    ContainerStatuses := [{}, { Name := sidecarContainer.Name, State := { Waiting := true } }] }

/-! # Theorems -/

theorem finish_eq (e : Entrypointer) (err : Option GoError) (h : List Event) :
    ∃ w, (match e.WritePostFile e.PostFile err h with
      | (true, h2) => (⟨Exit.fatal, h2⟩ : Execution)
      | (false, h2) => ⟨Exit.returned err, h2⟩)
      = ⟨postExit e err w, h ++ postWrites e err w⟩ := by
  unfold Entrypointer.WritePostFile postExit postWrites
  by_cases hp : postPath e.PostFile err ≠ ""
  · cases hw : e.Writer h (postPath e.PostFile err) with
    | none => exact ⟨none, by simp [hp, hw]⟩
    | some werr => exact ⟨some werr, by simp [hp, hw]⟩
  · exact ⟨none, by simp [hp]⟩

theorem goRun_shape (e : Entrypointer) (h : List Event) :
    ∃ w, e.goRun h = ⟨postExit e (e.Runner h (runArgs e)) w,
      h ++ Event.run (runArgs e) (e.Runner h (runArgs e))
        :: postWrites e (e.Runner h (runArgs e)) w⟩ := by
  obtain ⟨w, hw⟩ := finish_eq e (e.Runner h (runArgs e))
    (h ++ [Event.run (runArgs e) (e.Runner h (runArgs e))])
  refine ⟨w, ?_⟩
  unfold Entrypointer.goRun
  simp only [runArgs] at hw ⊢
  rw [hw]
  simp

theorem goStart_shape (e : Entrypointer) :
    StartFailure e (e.goStart (okWaits e e.WaitFiles)) ∨
      RunReached e (e.goStart (okWaits e e.WaitFiles)) := by
  unfold Entrypointer.goStart
  by_cases hs : e.StartFile ≠ ""
  · cases hw : e.Writer (okWaits e e.WaitFiles) e.StartFile with
    | some werr =>
      left
      exact ⟨hs, werr, hw, by simp [hs, hw]⟩
    | none =>
      right
      obtain ⟨w, hr⟩ := goRun_shape e (okWaits e e.WaitFiles ++ [Event.write e.StartFile none])
      refine ⟨_, w, rfl, ?_⟩
      simp [hs, hw, hr, startWrites]
  · right
    obtain ⟨w, hr⟩ := goRun_shape e (okWaits e e.WaitFiles)
    refine ⟨_, w, rfl, ?_⟩
    simp [hs, hr, startWrites]

theorem goFrom_shape (e : Entrypointer) :
    ∀ (fs done : List String), done ++ fs = e.WaitFiles →
      WaitFailure e (e.goFrom fs (okWaits e done)) ∨
      StartFailure e (e.goFrom fs (okWaits e done)) ∨
      RunReached e (e.goFrom fs (okWaits e done)) := by
  intro fs
  induction fs with
  | nil =>
    intro done hd
    simp only [List.append_nil] at hd
    subst hd
    right
    simpa [Entrypointer.goFrom] using goStart_shape e
  | cons f fs ih =>
    intro done hd
    cases hw : e.Waiter (okWaits e done) f e.WaitFileContent with
    | some err =>
      left
      obtain ⟨w, hf⟩ := finish_eq e (some err)
        (okWaits e done ++ [Event.wait f e.WaitFileContent (some err)])
      refine ⟨done, f, fs, err, w, hd.symm, hw, ?_⟩
      simp only [Entrypointer.goFrom, hw]
      rw [hf]
      simp
    | none =>
      have h2 : okWaits e done ++ [Event.wait f e.WaitFileContent none]
          = okWaits e (done ++ [f]) := by simp [okWaits]
      simp only [Entrypointer.goFrom, hw, h2]
      exact ih (done ++ [f]) (by simpa using hd)

/-- Every execution of `Go` is a wait failure, a start-file failure, or reaches
the runner. -/
theorem Go_shape (e : Entrypointer) :
    WaitFailure e e.Go ∨ StartFailure e e.Go ∨ RunReached e e.Go := by
  have := goFrom_shape e e.WaitFiles [] (by simp)
  simpa [Entrypointer.Go, okWaits] using this

/-! ## Facts about the pieces of a trace -/

theorem mem_okWaits {e : Entrypointer} {fs : List String} {ev : Event}
    (h : ev ∈ okWaits e fs) : ∃ f ∈ fs, ev = Event.wait f e.WaitFileContent none := by
  unfold okWaits at h
  obtain ⟨f, hf, rfl⟩ := List.mem_map.1 h
  exact ⟨f, hf, rfl⟩

theorem mem_startWrites {e : Entrypointer} {ev : Event}
    (h : ev ∈ startWrites e) : e.StartFile ≠ "" ∧ ev = Event.write e.StartFile none := by
  unfold startWrites at h
  split at h
  · next hs => exact ⟨hs, by simpa using h⟩
  · simp at h

theorem mem_postWrites {e : Entrypointer} {err w : Option GoError} {ev : Event}
    (h : ev ∈ postWrites e err w) :
    postPath e.PostFile err ≠ "" ∧ ev = Event.write (postPath e.PostFile err) w := by
  unfold postWrites at h
  split at h
  · next hs => exact ⟨hs, by simpa using h⟩
  · simp at h

theorem postPath_ne_empty {pf : String} (err : Option GoError) (h : pf ≠ "") :
    postPath pf err ≠ "" := by
  unfold postPath
  split
  · intro hc
    have hl := congrArg String.length hc
    have hpos : pf.length ≠ 0 := by
      intro h0
      apply h
      cases pf with
      | mk data =>
        have : data = [] := List.length_eq_zero.1 h0
        simp [this]
    simp [String.length_append] at hl
    exact hpos hl.1
  · exact h

theorem postPath_empty (err : Option GoError) : postPath "" err = "" := by
  simp [postPath]

theorem postPath_none (pf : String) : postPath pf none = pf := by
  simp [postPath]

theorem postPath_some {pf : String} (err : GoError) (h : pf ≠ "") :
    postPath pf (some err) = pf ++ ".err" := by
  simp [postPath, h]

/-- A list with a single run event splits around that event in one way only. -/
theorem run_split_unique : ∀ (l1 l2 p q : List Event) (a b : Event),
    (∀ x ∈ l1, x.isRun = false) → (∀ x ∈ l2, x.isRun = false) → b.isRun = true →
    l1 ++ a :: l2 = p ++ b :: q → p = l1 ∧ b = a ∧ q = l2 := by
  intro l1
  induction l1 with
  | nil =>
    intro l2 p q a b _ h2 hb heq
    cases p with
    | nil =>
      simp only [List.nil_append, List.cons.injEq] at heq
      exact ⟨rfl, heq.1.symm, heq.2.symm⟩
    | cons y p =>
      simp only [List.nil_append, List.cons_append, List.cons.injEq] at heq
      have hmem : b ∈ l2 := by rw [heq.2]; simp
      have := h2 b hmem
      rw [hb] at this
      exact absurd this (by simp)
  | cons x l1 ih =>
    intro l2 p q a b h1 h2 hb heq
    cases p with
    | nil =>
      simp only [List.nil_append, List.cons_append, List.cons.injEq] at heq
      have := h1 x (by simp)
      rw [heq.1, hb] at this
      exact absurd this (by simp)
    | cons y p =>
      simp only [List.cons_append, List.cons.injEq] at heq
      obtain ⟨hp, hba, hq⟩ := ih l2 p q a b (fun z hz => h1 z (by simp [hz])) h2 hb heq.2
      exact ⟨by rw [heq.1, hp], hba, hq⟩

theorem okWaits_not_run {e : Entrypointer} {fs : List String} :
    ∀ ev ∈ okWaits e fs, ev.isRun = false := by
  intro ev h
  obtain ⟨f, _, rfl⟩ := mem_okWaits h
  rfl

theorem startWrites_not_run {e : Entrypointer} : ∀ ev ∈ startWrites e, ev.isRun = false := by
  intro ev h
  obtain ⟨_, rfl⟩ := mem_startWrites h
  rfl

theorem postWrites_not_run {e : Entrypointer} {err w : Option GoError} :
    ∀ ev ∈ postWrites e err w, ev.isRun = false := by
  intro ev h
  obtain ⟨_, rfl⟩ := mem_postWrites h
  rfl

/-- A wait failure contradicts `AllWaitsSucceed`. -/
theorem WaitFailure.not_allWaits {e : Entrypointer} (h : WaitFailure e e.Go) :
    ¬ AllWaitsSucceed e := by
  obtain ⟨pre, f, suf, err, w, _, _, hx⟩ := h
  intro hall
  have := hall (Event.wait f e.WaitFileContent (some err)) (by rw [hx]; simp)
  simp [Event.isFailedWait] at this

/-- An execution without a wait failure made only successful waits. -/
theorem allWaits_of_not_waitFailure {e : Entrypointer}
    (h : StartFailure e e.Go ∨ RunReached e e.Go) : AllWaitsSucceed e := by
  intro ev hev
  rcases h with ⟨_, werr, _, hx⟩ | ⟨r, w, _, hx⟩
  · rw [hx] at hev
    simp only [List.mem_append, List.mem_singleton] at hev
    rcases hev with hev | rfl
    · obtain ⟨f, _, rfl⟩ := mem_okWaits hev; rfl
    · rfl
  · rw [hx] at hev
    simp only [List.mem_append, List.mem_cons] at hev
    rcases hev with (hev | hev) | rfl | hev
    · obtain ⟨f, _, rfl⟩ := mem_okWaits hev; rfl
    · obtain ⟨_, rfl⟩ := mem_startWrites hev; rfl
    · rfl
    · obtain ⟨_, rfl⟩ := mem_postWrites hev; rfl

/-! ## Claims about `Entrypointer.Go` -/

/-- C1: for an Entrypointer with a non-empty PostFile whose waits all succeed,
whatever `Runner.Run` returned, the calls `Go` makes after the run are exactly
one write of the post file: at `PostFile` when the run returned nil, at
`PostFile ++ ".err"` when it returned an error.  There is at most one run, and
the run is reached whenever the start-file step does not end the process. -/
theorem C1_post_file_written_once_after_run (e : Entrypointer)
    (hpost : e.PostFile ≠ "") (hwaits : AllWaitsSucceed e) :
    (∀ pre args r post, e.Go.trace = pre ++ Event.run args r :: post →
      (∀ ev ∈ pre, ev.isRun = false) ∧
      (r = none → ∃ w, post = [Event.write e.PostFile w]) ∧
      (∀ err, r = some err → ∃ w, post = [Event.write (e.PostFile ++ ".err") w])) ∧
    (StartWriteSucceeds e →
      ∃ pre r post, e.Go.trace = pre ++ Event.run (runArgs e) r :: post ∧
        r = e.Runner pre (runArgs e)) := by
  rcases Go_shape e with hf | hs | ⟨r0, w0, hr0, hx⟩
  · exact absurd hwaits hf.not_allWaits
  · obtain ⟨hne, werr, _, hx⟩ := hs
    constructor
    · intro pre args r post hdec
      have hmem : Event.run args r ∈ e.Go.trace := by rw [hdec]; simp
      rw [hx] at hmem
      simp only [List.mem_append, List.mem_singleton] at hmem
      rcases hmem with hmem | hmem
      · have := okWaits_not_run _ hmem
        simp [Event.isRun] at this
      · cases hmem
    · intro hsw
      rcases hsw with hsw | hsw
      · exact absurd hsw hne
      · rw [hx] at hsw
        simp only [List.mem_append, List.mem_singleton] at hsw
        rcases hsw with hsw | hsw
        · obtain ⟨f, _, hf⟩ := mem_okWaits hsw
          cases hf
        · cases hsw
  · constructor
    · intro pre args r post hdec
      rw [hx] at hdec
      have hpre : ∀ x ∈ okWaits e e.WaitFiles ++ startWrites e, x.isRun = false := by
        intro x hxm
        rcases List.mem_append.1 hxm with h | h
        · exact okWaits_not_run _ h
        · exact startWrites_not_run _ h
      obtain ⟨hp, hb, hq⟩ := run_split_unique _ _ pre post _ (Event.run args r)
        hpre postWrites_not_run rfl hdec
      cases hb
      subst hp hq
      refine ⟨hpre, ?_, ?_⟩
      · intro hr
        subst hr
        refine ⟨w0, ?_⟩
        simp [postWrites, postPath_none, hpost]
      · intro err hr
        subst hr
        refine ⟨w0, ?_⟩
        have hne := postPath_ne_empty (some err) hpost
        simp only [postWrites, hne, ne_eq, not_false_eq_true, if_true]
        rw [postPath_some err hpost]
    · intro _
      exact ⟨_, r0, _, by rw [hx], hr0.symm⟩

/-- C3: for an Entrypointer whose signal-file writes all succeed, `Go` returns
(it does not end in `log.Fatalf`); the value returned is non-nil exactly when a
wait failed or `Runner.Run` returned an error; a failed wait's error is the
value returned; and when the waits succeed the value returned is the value
`Runner.Run` returned. -/
theorem C3_go_returns_wait_or_run_error (e : Entrypointer) (hw : AllWritesSucceed e) :
    ∃ r, e.Go.exit = Exit.returned r ∧
      (r ≠ none ↔ (¬ AllWaitsSucceed e ∨ ∃ args err, Event.run args (some err) ∈ e.Go.trace)) ∧
      (∀ f c err, Event.wait f c (some err) ∈ e.Go.trace → r = some err) ∧
      (AllWaitsSucceed e → ∃ pre post,
        e.Go.trace = pre ++ Event.run (runArgs e) r :: post ∧ r = e.Runner pre (runArgs e)) := by
  have hexit : ∀ (err w : Option GoError),
      (∀ ev ∈ postWrites e err w, ev.isFailedWrite = false) →
      postExit e err w = Exit.returned err := by
    intro err w hall
    unfold postExit
    split
    · next hc =>
      have := hall (Event.write (postPath e.PostFile err) w) (by simp [postWrites, hc.1])
      cases w with
      | none => exact absurd rfl hc.2
      | some werr => simp [Event.isFailedWrite] at this
    · rfl
  rcases Go_shape e with hf | hs | ⟨r0, w0, hr0, hx⟩
  · have hnot := hf.not_allWaits
    obtain ⟨pre, f, suf, err, w, _, _, hx⟩ := hf
    have hpw : ∀ ev ∈ postWrites e (some err) w, ev.isFailedWrite = false := by
      intro ev hev
      exact hw ev (by rw [hx]; simp [hev])
    refine ⟨some err, by rw [hx]; exact hexit _ _ hpw, ?_, ?_, ?_⟩
    · simp [hnot]
    · intro f2 c2 err2 hmem
      rw [hx] at hmem
      simp only [List.mem_append, List.mem_cons] at hmem
      rcases hmem with hmem | hmem | hmem
      · obtain ⟨g, _, hg⟩ := mem_okWaits hmem
        cases hg
      · cases hmem; rfl
      · obtain ⟨_, hg⟩ := mem_postWrites hmem
        cases hg
    · intro hall
      exact absurd hall hnot
  · obtain ⟨_, werr, _, hx⟩ := hs
    have := hw (Event.write e.StartFile (some werr)) (by rw [hx]; simp)
    simp [Event.isFailedWrite] at this
  · have hall : AllWaitsSucceed e := allWaits_of_not_waitFailure (Or.inr ⟨r0, w0, hr0, hx⟩)
    have hpw : ∀ ev ∈ postWrites e r0 w0, ev.isFailedWrite = false := by
      intro ev hev
      exact hw ev (by rw [hx]; simp [hev])
    refine ⟨r0, by rw [hx]; exact hexit _ _ hpw, ?_, ?_, ?_⟩
    · constructor
      · intro hne
        right
        cases r0 with
        | none => exact absurd rfl hne
        | some err => exact ⟨runArgs e, err, by rw [hx]; simp⟩
      · rintro (hn | ⟨args, err, hmem⟩)
        · exact absurd hall hn
        · rw [hx] at hmem
          simp only [List.mem_append, List.mem_cons] at hmem
          rcases hmem with (hmem | hmem) | hmem | hmem
          · have := okWaits_not_run _ hmem
            simp [Event.isRun] at this
          · have := startWrites_not_run _ hmem
            simp [Event.isRun] at this
          · cases hmem; simp
          · have := postWrites_not_run _ hmem
            simp [Event.isRun] at this
    · intro f c err hmem
      have := hall _ hmem
      simp [Event.isFailedWait] at this
    · intro _
      exact ⟨_, _, by rw [hx], hr0.symm⟩

/-- Witness for C1: a second step whose command exits with status 1 writes the suffixed post file once after the run. -/
theorem C1_post_file_written_once_after_run_witness :
    failingStep.PostFile ≠ "" ∧ AllWaitsSucceed failingStep ∧
    failingStep.Go.trace =
      [Event.wait "/tekton/tools/0" false none] ++
        Event.run ["cmd", "arg1", "arg2"] (some (GoError.exitStatus 1)) ::
        [Event.write "/tekton/tools/1.err" none] ∧
    ∃ w, [Event.write "/tekton/tools/1.err" none]
      = [Event.write (failingStep.PostFile ++ ".err") w] :=
  ⟨by decide, by decide, by decide,
    ((C1_post_file_written_once_after_run failingStep (by decide) (by decide)).1
      [Event.wait "/tekton/tools/0" false none] ["cmd", "arg1", "arg2"]
      (some (GoError.exitStatus 1)) [Event.write "/tekton/tools/1.err" none]
      (by decide)).2.2 (GoError.exitStatus 1) rfl⟩

/-- Witness for C3: a first step whose command fails, on a writable volume. -/
theorem C3_go_returns_wait_or_run_error_witness :
    AllWritesSucceed plainFailingStep ∧
    ∃ r, plainFailingStep.Go.exit = Exit.returned r ∧
      (r ≠ none ↔ (¬ AllWaitsSucceed plainFailingStep ∨
        ∃ args err, Event.run args (some err) ∈ plainFailingStep.Go.trace)) ∧
      (∀ f c err, Event.wait f c (some err) ∈ plainFailingStep.Go.trace → r = some err) ∧
      (AllWaitsSucceed plainFailingStep → ∃ pre post,
        plainFailingStep.Go.trace = pre ++ Event.run (runArgs plainFailingStep) r :: post ∧
          r = plainFailingStep.Runner pre (runArgs plainFailingStep)) :=
  ⟨by decide, C3_go_returns_wait_or_run_error plainFailingStep (by decide)⟩

/-- C2, as stated, fails: here the first wait is cancelled and the write of the
error-suffixed post file fails, so the process ends in `log.Fatalf` and `Go`
does not return the wait error. -/
theorem C2_counterexample :
    cancelledStepReadOnly.Go =
      ⟨Exit.fatal,
        [Event.wait "/tekton/tools/0" false (some (GoError.other "wait cancelled")),
         Event.write "/tekton/tools/1.err" (some (GoError.other "read-only file system"))]⟩ ∧
    cancelledStepReadOnly.Go.exit ≠ Exit.returned (some (GoError.other "wait cancelled")) := by
  decide

/-- C2 (amended): when `Waiter.Wait` returns an error `err` for the wait file
`f`, the calls of `Go` are the successful waits on the files before `f`, the
failed wait, and one write of `PostFile ++ ".err"` when PostFile is non-empty;
`Runner.Run` is never invoked and no later wait file is waited on; `Go` returns
`err` when that write succeeds or no PostFile is configured, and the process
ends in `log.Fatalf` when that write fails. -/
theorem C2_wait_error_stops_go (e : Entrypointer) (f : String) (c : Bool) (err : GoError)
    (hfail : Event.wait f c (some err) ∈ e.Go.trace) :
    ∃ pre suf w, e.WaitFiles = pre ++ f :: suf ∧ c = e.WaitFileContent ∧
      e.Go.trace = okWaits e pre ++ Event.wait f c (some err) ::
        (if e.PostFile ≠ "" then [Event.write (e.PostFile ++ ".err") w] else []) ∧
      (∀ ev ∈ e.Go.trace, ev.isRun = false) ∧
      (e.PostFile = "" ∨ w = none → e.Go.exit = Exit.returned (some err)) ∧
      (e.PostFile ≠ "" → w ≠ none → e.Go.exit = Exit.fatal) := by
  rcases Go_shape e with hf | hs
  · obtain ⟨pre, f0, suf, err0, w, hfiles, _, hx⟩ := hf
    have hev : f = f0 ∧ c = e.WaitFileContent ∧ err = err0 := by
      rw [hx] at hfail
      simp only [List.mem_append, List.mem_cons] at hfail
      rcases hfail with hm | hm | hm
      · obtain ⟨g, _, hg⟩ := mem_okWaits hm
        cases hg
      · cases hm; exact ⟨rfl, rfl, rfl⟩
      · obtain ⟨_, hg⟩ := mem_postWrites hm
        cases hg
    obtain ⟨rfl, rfl, rfl⟩ := hev
    have hpw : postWrites e (some err) w
        = if e.PostFile ≠ "" then [Event.write (e.PostFile ++ ".err") w] else [] := by
      by_cases hp : e.PostFile = ""
      · simp [postWrites, hp, postPath_empty]
      · have h1 := postPath_some err hp
        have h2 := postPath_ne_empty (some err) hp
        rw [h1] at h2
        simp [postWrites, hp, h1, h2]
    refine ⟨pre, suf, w, hfiles, rfl, by rw [hx, hpw], ?_, ?_, ?_⟩
    · intro ev hev
      rw [hx] at hev
      simp only [List.mem_append, List.mem_cons] at hev
      rcases hev with hm | rfl | hm
      · exact okWaits_not_run _ hm
      · rfl
      · exact postWrites_not_run _ hm
    · intro hor
      rw [hx]
      simp only [postExit]
      rcases hor with hp | hwn
      · simp [hp, postPath_empty]
      · simp [hwn]
    · intro hp hwn
      rw [hx]
      simp [postExit, postPath_ne_empty (some err) hp, hwn]
  · have hall := allWaits_of_not_waitFailure hs
    have := hall _ hfail
    simp [Event.isFailedWait] at this

/-- Witness for C2 (amended): a step whose first wait is cancelled, on a writable volume, returns the wait error. -/
theorem C2_wait_error_stops_go_witness :
    Event.wait "/tekton/tools/0" false (some (GoError.other "wait cancelled"))
      ∈ cancelledStep.Go.trace ∧
    cancelledStep.Go.exit = Exit.returned (some (GoError.other "wait cancelled")) ∧
    ∃ pre suf w, cancelledStep.WaitFiles = pre ++ "/tekton/tools/0" :: suf ∧
      false = cancelledStep.WaitFileContent ∧
      cancelledStep.Go.trace = okWaits cancelledStep pre ++
        Event.wait "/tekton/tools/0" false (some (GoError.other "wait cancelled")) ::
        (if cancelledStep.PostFile ≠ ""
          then [Event.write (cancelledStep.PostFile ++ ".err") w] else []) ∧
      (∀ ev ∈ cancelledStep.Go.trace, ev.isRun = false) ∧
      (cancelledStep.PostFile = "" ∨ w = none →
        cancelledStep.Go.exit = Exit.returned (some (GoError.other "wait cancelled"))) ∧
      (cancelledStep.PostFile ≠ "" → w ≠ none → cancelledStep.Go.exit = Exit.fatal) :=
  ⟨by decide, by decide,
    C2_wait_error_stops_go cancelledStep "/tekton/tools/0" false
      (GoError.other "wait cancelled") (by decide)⟩

/-- C9, as stated, fails: here the Entrypoint is non-empty and there is no wait
to fail, but the write of the start file fails, so the process ends in
`log.Fatalf` and `Runner.Run` is never invoked. -/
theorem C9_counterexample :
    startOnReadOnly.Entrypoint ≠ "" ∧ AllWaitsSucceed startOnReadOnly ∧
    startOnReadOnly.Go =
      ⟨Exit.fatal,
        [Event.write "/tekton/tools/start" (some (GoError.other "read-only file system"))]⟩ ∧
    startOnReadOnly.Go.trace.filter Event.isRun = [] := by
  decide

/-- C9 (amended): for an Entrypointer with a non-empty Entrypoint whose waits
succeed and whose start-file step does not end the process, `Go` invokes
`Runner.Run` exactly once, with the argument vector `Entrypoint :: Args`. -/
theorem C9_runner_invoked_once_with_entrypoint_and_args (e : Entrypointer)
    (hentry : e.Entrypoint ≠ "") (hwaits : AllWaitsSucceed e) (hstart : StartWriteSucceeds e) :
    ∃ r, e.Go.trace.filter Event.isRun = [Event.run (e.Entrypoint :: e.Args) r] ∧
      ∃ pre, r = e.Runner pre (e.Entrypoint :: e.Args) := by
  have hfil : ∀ l : List Event, (∀ x ∈ l, x.isRun = false) → l.filter Event.isRun = [] := by
    intro l hl
    exact List.filter_eq_nil_iff.2 (fun x hx => by simp [hl x hx])
  rcases Go_shape e with hf | hs | ⟨r0, w0, hr0, hx⟩
  · exact absurd hwaits hf.not_allWaits
  · obtain ⟨hne, werr, _, hx⟩ := hs
    rcases hstart with hsw | hsw
    · exact absurd hsw hne
    · rw [hx] at hsw
      simp only [List.mem_append, List.mem_singleton] at hsw
      rcases hsw with hsw | hsw
      · obtain ⟨g, _, hg⟩ := mem_okWaits hsw
        cases hg
      · cases hsw
  · have hargs : runArgs e = e.Entrypoint :: e.Args := by simp [runArgs, hentry]
    refine ⟨r0, ?_, _, by rw [← hargs]; exact hr0.symm⟩
    rw [hx, List.filter_append, List.filter_append, List.filter_cons,
      hfil _ okWaits_not_run, hfil _ startWrites_not_run, hfil _ postWrites_not_run, hargs]
    simp [Event.isRun]

/-- Witness for C9 (amended): the step `echo hello world` calls the runner once with that vector. -/
theorem C9_runner_invoked_once_with_entrypoint_and_args_witness :
    echoStep.Entrypoint ≠ "" ∧ AllWaitsSucceed echoStep ∧ StartWriteSucceeds echoStep ∧
    echoStep.Go.trace.filter Event.isRun = [Event.run ["echo", "hello", "world"] none] ∧
    ∃ r, echoStep.Go.trace.filter Event.isRun
        = [Event.run (echoStep.Entrypoint :: echoStep.Args) r] ∧
      ∃ pre, r = echoStep.Runner pre (echoStep.Entrypoint :: echoStep.Args) :=
  ⟨by decide, by decide, by decide, by decide,
    C9_runner_invoked_once_with_entrypoint_and_args echoStep (by decide) (by decide)
      (by decide)⟩

theorem postWrites_eq (e : Entrypointer) (r w : Option GoError) :
    postWrites e r w = if e.PostFile ≠ "" then
      [Event.write (if r = none then e.PostFile else e.PostFile ++ ".err") w] else [] := by
  by_cases hp : e.PostFile = ""
  · simp [postWrites, hp, postPath_empty]
  · cases r with
    | none => simp [postWrites, hp, postPath_none]
    | some err =>
      have h1 := postPath_some err hp
      have h2 := postPath_ne_empty (some err) hp
      rw [h1] at h2
      simp [postWrites, hp, h1, h2]

/-- C8: for an Entrypointer with a non-empty StartFile whose waits all succeed,
the calls of `Go` are: the successful waits on all wait files, then the write of
StartFile, then (unless that write fails, which ends the process) `Runner.Run`,
then the write of the post file when one is configured.  When a wait fails the
calls end with the failed wait and the write of the error-suffixed post file,
so no start-file write is made (StartFile is not written unless it is that very
path).  When StartFile is empty no write of it is ever made and the run follows
the waits directly. -/
theorem C8_start_file_after_waits_before_run (e : Entrypointer) :
    (e.StartFile ≠ "" → AllWaitsSucceed e →
      ∃ w rest, e.Go.trace = okWaits e e.WaitFiles ++ Event.write e.StartFile w :: rest ∧
        ((w ≠ none ∧ rest = [] ∧ e.Go.exit = Exit.fatal) ∨
         (w = none ∧ ∃ r w2, rest = Event.run (runArgs e) r ::
            (if e.PostFile ≠ "" then
              [Event.write (if r = none then e.PostFile else e.PostFile ++ ".err") w2]
             else [])))) ∧
    (¬ AllWaitsSucceed e →
      ∃ pre f err w, e.Go.trace = okWaits e pre ++ Event.wait f e.WaitFileContent (some err) ::
          (if e.PostFile ≠ "" then [Event.write (e.PostFile ++ ".err") w] else []) ∧
        (e.StartFile ≠ e.PostFile ++ ".err" → ∀ w2, Event.write e.StartFile w2 ∉ e.Go.trace)) ∧
    (e.StartFile = "" →
      (∀ w, Event.write e.StartFile w ∉ e.Go.trace) ∧
      (AllWaitsSucceed e →
        ∃ r pw, e.Go.trace = okWaits e e.WaitFiles ++ Event.run (runArgs e) r :: pw)) := by
  refine ⟨?_, ?_, ?_⟩
  · intro hne hall
    rcases Go_shape e with hf | hs | ⟨r0, w0, _, hx⟩
    · exact absurd hall hf.not_allWaits
    · obtain ⟨_, werr, _, hx⟩ := hs
      exact ⟨some werr, [], by rw [hx], Or.inl ⟨by simp, rfl, by rw [hx]⟩⟩
    · refine ⟨none, _, ?_, Or.inr ⟨rfl, r0, w0, rfl⟩⟩
      rw [hx, ← postWrites_eq]
      simp [startWrites, hne]
  · intro hnot
    rcases Go_shape e with hf | hs
    · obtain ⟨pre, f, suf, err, w, _, _, hx⟩ := hf
      refine ⟨pre, f, err, w, ?_, ?_⟩
      · rw [hx, postWrites_eq]
        simp
      · intro hdiff w2 hmem
        rw [hx, postWrites_eq] at hmem
        simp only [List.mem_append, List.mem_cons] at hmem
        rcases hmem with hm | hm | hm
        · obtain ⟨g, _, hg⟩ := mem_okWaits hm
          cases hg
        · cases hm
        · split at hm
          · simp only [List.mem_singleton, Event.write.injEq] at hm
            exact hdiff (by simpa using hm.1)
          · simp at hm
    · exact absurd (allWaits_of_not_waitFailure hs) hnot
  · intro hempty
    constructor
    · intro w hmem
      have hpw : ∀ (r w1 : Option GoError), Event.write e.StartFile w ∉ postWrites e r w1 := by
        intro r w1 hm
        obtain ⟨hne, hg⟩ := mem_postWrites hm
        simp only [Event.write.injEq] at hg
        exact hne (by rw [← hg.1, hempty])
      rcases Go_shape e with hf | hs | ⟨r0, w0, _, hx⟩
      · obtain ⟨pre, f, suf, err, w1, _, _, hx⟩ := hf
        rw [hx] at hmem
        simp only [List.mem_append, List.mem_cons] at hmem
        rcases hmem with hm | hm | hm
        · obtain ⟨g, _, hg⟩ := mem_okWaits hm
          cases hg
        · cases hm
        · exact hpw _ _ hm
      · exact hs.1 hempty
      · rw [hx] at hmem
        simp only [List.mem_append, List.mem_cons] at hmem
        rcases hmem with (hm | hm) | hm | hm
        · obtain ⟨g, _, hg⟩ := mem_okWaits hm
          cases hg
        · exact (mem_startWrites hm).1 hempty
        · cases hm
        · exact hpw _ _ hm
    · intro hall
      rcases Go_shape e with hf | hs | ⟨r0, w0, _, hx⟩
      · exact absurd hall hf.not_allWaits
      · exact absurd hempty hs.1
      · refine ⟨r0, postWrites e r0 w0, ?_⟩
        rw [hx]
        simp [startWrites, hempty]

/-- Witness for C8: the first step of a chain waits, writes its start file, runs, and writes its post file, in that order. -/
theorem C8_start_file_after_waits_before_run_witness :
    firstStep.StartFile ≠ "" ∧ AllWaitsSucceed firstStep ∧
    firstStep.Go.trace =
      [Event.wait "/tekton/downward/ready" true none, Event.write "/tekton/tools/start" none,
       Event.run ["cmd", "arg1"] none, Event.write "/tekton/tools/0" none] ∧
    ∃ w rest, firstStep.Go.trace
        = okWaits firstStep firstStep.WaitFiles ++ Event.write firstStep.StartFile w :: rest ∧
      ((w ≠ none ∧ rest = [] ∧ firstStep.Go.exit = Exit.fatal) ∨
       (w = none ∧ ∃ r w2, rest = Event.run (runArgs firstStep) r ::
          (if firstStep.PostFile ≠ "" then
            [Event.write (if r = none then firstStep.PostFile
              else firstStep.PostFile ++ ".err") w2]
           else []))) :=
  ⟨by decide, by decide, by decide,
    (C8_start_file_after_waits_before_run firstStep).1 (by decide) (by decide)⟩

/-! ## Claims about `realRunner.Run` -/

/-- What `realRunner.Run` does with a non-empty argument vector: a child
`args[0]` with arguments `args[1:]` is started exactly when `os/exec` starts
one; the value returned is nil when `cmd.Run()` returns nil or the sentinel
`context.Canceled`, and the error of `cmd.Run()` itself otherwise. -/
theorem realRunner_Run_cons (cmdRun : String → List String → CmdResult)
    (name : String) (rest : List String) :
    (realRunner.Run cmdRun (name :: rest)).2
      = (if (cmdRun name rest).started then [⟨name, rest⟩] else []) ∧
    ((cmdRun name rest).err = none → (realRunner.Run cmdRun (name :: rest)).1 = none) ∧
    ((cmdRun name rest).err = some GoError.canceled →
      (realRunner.Run cmdRun (name :: rest)).1 = none) ∧
    (∀ err, (cmdRun name rest).err = some err → err ≠ GoError.canceled →
      (realRunner.Run cmdRun (name :: rest)).1 = some err) := by
  refine ⟨?_, ?_, ?_, ?_⟩
  · unfold realRunner.Run
    simp only
    split <;> rfl
  · intro h
    simp [realRunner.Run, h]
  · intro h
    simp [realRunner.Run, h]
  · intro err h hc
    cases err with
    | canceled => exact absurd rfl hc
    | exitStatus code => simp [realRunner.Run, h]
    | signalKilled => simp [realRunner.Run, h]
    | other msg => simp [realRunner.Run, h]

/-- C10 fails on the code for a run aborted by cancellation.  When the context
is cancelled while the child `sleep 60` runs, `os/exec` kills the child and
`cmd.Run()` returns an `*exec.ExitError`, which is not `context.Canceled`, so
`realRunner.Run` returns that error instead of nil.  Only a context already
cancelled before the child starts reaches the branch that returns nil.  The
other parts of the claim hold: a clean exit gives nil, a non-zero exit status
and a failure to start are returned unchanged. -/
theorem C10_cancelled_run_returns_error :
    realRunner.Run cancelledWhileRunning ["sleep", "60"]
      = (some GoError.signalKilled, [⟨"sleep", ["60"]⟩]) ∧
    realRunner.Run cancelledBeforeStart ["sleep", "60"] = (none, []) ∧
    realRunner.Run exitZero ["true"] = (none, [⟨"true", []⟩]) ∧
    realRunner.Run exitOne ["false", "x"]
      = (some (GoError.exitStatus 1), [⟨"false", ["x"]⟩]) ∧
    realRunner.Run notFound ["nope"]
      = (some (GoError.other "executable file not found in $PATH"), []) := by
  decide

/-! ## The Entrypointer run by the `realRunner` -/

theorem spawnedBy_append (cmdRun : String → List String → CmdResult) :
    ∀ l1 l2 : List Event,
      spawnedBy cmdRun (l1 ++ l2) = spawnedBy cmdRun l1 ++ spawnedBy cmdRun l2 := by
  intro l1
  induction l1 with
  | nil => intro l2; simp [spawnedBy]
  | cons x l1 ih =>
    intro l2
    cases x <;> simp [spawnedBy, ih]

theorem spawnedBy_of_not_run (cmdRun : String → List String → CmdResult) :
    ∀ l : List Event, (∀ x ∈ l, x.isRun = false) → spawnedBy cmdRun l = [] := by
  intro l
  induction l with
  | nil => intro _; rfl
  | cons x l ih =>
    intro h
    have hl := ih (fun y hy => h y (by simp [hy]))
    have hx := h x (by simp)
    cases x <;> simp_all [spawnedBy, Event.isRun]

/-- C7, as stated, fails.  With no Entrypoint but a non-empty Args, `Go` passes
Args to the runner, which starts `Args[0]`; when that command fails the post
file is the suffixed one and `Go` returns the error.  With neither Entrypoint
nor Args, a failing post-file write ends the process in `log.Fatalf`. -/
theorem C7_counterexample :
    (argsOnlyStep.Entrypoint = "" ∧ AllWaitsSucceed argsOnlyStep ∧
      argsOnlyStep.Go =
        ⟨Exit.returned (some (GoError.exitStatus 1)),
          [Event.wait "/tekton/tools/0" false none,
           Event.run ["false", "x"] (some (GoError.exitStatus 1)),
           Event.write "/tekton/tools/1.err" none]⟩ ∧
      spawnedBy exitOne argsOnlyStep.Go.trace = [⟨"false", ["x"]⟩]) ∧
    (placeholderReadOnly.Entrypoint = "" ∧ AllWaitsSucceed placeholderReadOnly ∧
      placeholderReadOnly.Go.exit = Exit.fatal) := by
  decide

/-- C7 (amended): for an Entrypointer with neither Entrypoint nor Args, run by
the `realRunner`, whose waits and signal-file writes succeed: `Runner.Run` is
called once with the empty argument vector and starts no command, the post file
is written unsuffixed when one is configured, and `Go` returns nil. -/
theorem C7_no_entrypoint_no_args_is_noop (e : Entrypointer)
    (cmdRun : String → List String → CmdResult)
    (hentry : e.Entrypoint = "") (hargs : e.Args = [])
    (hwaits : AllWaitsSucceed (e.withRealRunner cmdRun))
    (hwrites : AllWritesSucceed (e.withRealRunner cmdRun)) :
    (e.withRealRunner cmdRun).Go.exit = Exit.returned none ∧
    spawnedBy cmdRun (e.withRealRunner cmdRun).Go.trace = [] ∧
    (e.withRealRunner cmdRun).Go.trace =
      okWaits e e.WaitFiles ++ startWrites e ++
        Event.run [] none :: (if e.PostFile ≠ "" then [Event.write e.PostFile none] else []) := by
  have hra : runArgs (e.withRealRunner cmdRun) = [] := by
    simp [runArgs, Entrypointer.withRealRunner, hentry, hargs]
  rcases Go_shape (e.withRealRunner cmdRun) with hf | hs | ⟨r0, w0, hr0, hx⟩
  · exact absurd hwaits hf.not_allWaits
  · obtain ⟨_, werr, _, hx⟩ := hs
    have := hwrites (Event.write (e.withRealRunner cmdRun).StartFile (some werr))
      (by rw [hx]; simp)
    simp [Event.isFailedWrite] at this
  · have hr : r0 = none := by
      rw [← hr0, hra]
      rfl
    subst hr
    rw [hra] at hx
    have hpw : postWrites (e.withRealRunner cmdRun) none w0
        = if e.PostFile ≠ "" then [Event.write e.PostFile none] else [] := by
      rw [postWrites_eq]
      by_cases hp : e.PostFile = ""
      · simp [Entrypointer.withRealRunner, hp]
      · have := hwrites (Event.write e.PostFile w0) (by
          rw [hx, postWrites_eq]
          simp [Entrypointer.withRealRunner, hp])
        cases w0 with
        | none => simp [Entrypointer.withRealRunner, hp]
        | some werr => simp [Event.isFailedWrite] at this
    have hex : postExit (e.withRealRunner cmdRun) none w0 = Exit.returned none := by
      unfold postExit
      split
      · next hc =>
        have := hwrites (Event.write (postPath (e.withRealRunner cmdRun).PostFile none) w0) (by
          rw [hx]
          simp [postWrites, hc.1])
        cases w0 with
        | none => exact absurd rfl hc.2
        | some werr => simp [Event.isFailedWrite] at this
      · rfl
    have hok : okWaits (e.withRealRunner cmdRun) (e.withRealRunner cmdRun).WaitFiles
        = okWaits e e.WaitFiles := rfl
    have hst : startWrites (e.withRealRunner cmdRun) = startWrites e := rfl
    rw [hpw, hex, hok, hst] at hx
    refine ⟨by rw [hx], ?_, by rw [hx]⟩
    rw [hx, spawnedBy_append, spawnedBy_append,
      spawnedBy_of_not_run _ _ okWaits_not_run, spawnedBy_of_not_run _ _ startWrites_not_run]
    simp only [spawnedBy, realRunner.Run, List.nil_append]
    apply spawnedBy_of_not_run
    intro x hxm
    split at hxm
    · simp only [List.mem_singleton] at hxm
      subst hxm
      rfl
    · simp at hxm

/-- Witness for C7 (amended): a pure synchronisation step starts no command and returns nil. -/
theorem C7_no_entrypoint_no_args_is_noop_witness :
    placeholderStep.Entrypoint = "" ∧ placeholderStep.Args = [] ∧
    AllWaitsSucceed (placeholderStep.withRealRunner exitOne) ∧
    AllWritesSucceed (placeholderStep.withRealRunner exitOne) ∧
    (placeholderStep.withRealRunner exitOne).Go.exit = Exit.returned none ∧
    spawnedBy exitOne (placeholderStep.withRealRunner exitOne).Go.trace = [] ∧
    (placeholderStep.withRealRunner exitOne).Go.trace =
      okWaits placeholderStep placeholderStep.WaitFiles ++ startWrites placeholderStep ++
        Event.run [] none ::
          (if placeholderStep.PostFile ≠ "" then [Event.write placeholderStep.PostFile none]
           else []) :=
  ⟨by decide, by decide, by decide, by decide,
    C7_no_entrypoint_no_args_is_noop placeholderStep exitOne (by decide) (by decide)
      (by decide) (by decide)⟩

/-! ## The container-chain builder -/

/-- The model of the builder produces what `TestOrderContainers` expects. -/
theorem orderContainers_test :
    orderContainers tektonStaging "entrypoint-image" testSteps =
      Except.ok
        ({ Name := "place-tools", Image := "entrypoint-image",
           Command := ["cp", "/ko-app/entrypoint", tektonStaging.entrypointBinary],
           VolumeMounts := [tektonStaging.toolsMount] }, testWant) := by
  rfl

theorem parseFlags_wrapped (i : Nat) (c0 : String) (rest : List String) :
    parseFlags (waitPostFlags i ++ ["-entrypoint", c0, "--"] ++ rest) {} =
      some { waitFile := if i = 0 then downwardReadyFile else toolsFile (i - 1),
             waitFileContent := decide (i = 0),
             postFile := toolsFile i, entrypoint := c0, args := rest } := by
  have hsep : ∀ w : WrappedStep, parseFlags ("--" :: rest) w = some { w with args := rest } := by
    intro w
    cases rest <;> simp [parseFlags]
  cases i with
  | zero => simp [waitPostFlags, parseFlags, hsep]
  | succ k => simp [waitPostFlags, parseFlags, hsep]

theorem wrapStep_ok (st : Staging) (i : Nat) (s : Container) (c0 : String) (cs : List String)
    (h : s.Command = c0 :: cs) :
    wrapStep st i s = Except.ok { s with
      Command := [st.entrypointBinary]
      Args := waitPostFlags i ++ ["-entrypoint", c0, "--"] ++ (cs ++ s.Args)
      VolumeMounts := s.VolumeMounts ++ [st.toolsMount] ++
        (if i = 0 then [st.downwardMount] else []) } := by
  unfold wrapStep
  rw [h]

/-- A successful rewriting keeps the number of steps and rewrites the step at
offset `j` as step `k + j`. -/
theorem wrapSteps_get (st : Staging) :
    ∀ (steps : List Container) (k : Nat) (ws : List Container),
      wrapSteps st k steps = Except.ok ws →
      ws.length = steps.length ∧
      ∀ j s, steps[j]? = some s → ∃ w, ws[j]? = some w ∧ wrapStep st (k + j) s = Except.ok w := by
  intro steps
  induction steps with
  | nil =>
    intro k ws h
    simp only [wrapSteps, Except.ok.injEq] at h
    subst h
    exact ⟨rfl, by intro j s hj; simp at hj⟩
  | cons s0 rest ih =>
    intro k ws h
    unfold wrapSteps at h
    cases h0 : wrapStep st k s0 with
    | error err => simp [h0] at h
    | ok w0 =>
      cases h1 : wrapSteps st (k + 1) rest with
      | error err => simp [h0, h1] at h
      | ok ws1 =>
        simp only [h0, h1, Except.ok.injEq] at h
        subst h
        obtain ⟨hlen, hget⟩ := ih (k + 1) ws1 h1
        refine ⟨by simp [hlen], ?_⟩
        intro j s hj
        cases j with
        | zero =>
          simp only [List.getElem?_cons_zero, Option.some.injEq] at hj
          subst hj
          exact ⟨w0, by simp, by simpa using h0⟩
        | succ j =>
          simp only [List.getElem?_cons_succ] at hj
          obtain ⟨w, hw, hwrap⟩ := hget j s hj
          refine ⟨w, by simpa using hw, ?_⟩
          have : k + (j + 1) = k + 1 + j := by omega
          rw [this]
          exact hwrap

/-- The rewriting succeeds when every step has a command. -/
theorem wrapSteps_ok (st : Staging) :
    ∀ (steps : List Container) (k : Nat), (∀ s ∈ steps, s.Command ≠ []) →
      ∃ ws, wrapSteps st k steps = Except.ok ws := by
  intro steps
  induction steps with
  | nil => intro k _; exact ⟨[], rfl⟩
  | cons s0 rest ih =>
    intro k hcmd
    obtain ⟨ws, hws⟩ := ih (k + 1) (fun s hs => hcmd s (by simp [hs]))
    have h0 := hcmd s0 (by simp)
    cases hc : s0.Command with
    | nil => exact absurd hc h0
    | cons c0 cs =>
      unfold wrapSteps
      rw [wrapStep_ok st k s0 c0 cs hc, hws]
      exact ⟨_, rfl⟩

/-- The wrapped step at index `j` of a successful rewriting, spelled out. -/
theorem wrapped_of_step (st : Staging) (steps ws : List Container) (j : Nat) (s : Container)
    (c0 : String) (cs : List String)
    (h : wrapSteps st 0 steps = Except.ok ws) (hj : steps[j]? = some s)
    (hc : s.Command = c0 :: cs) :
    ∃ c, ws[j]? = some c ∧ c.Command = [st.entrypointBinary] ∧
      c.Args = waitPostFlags j ++ ["-entrypoint", c0, "--"] ++ (cs ++ s.Args) ∧
      c.wrapped = some { waitFile := if j = 0 then downwardReadyFile else toolsFile (j - 1),
                         waitFileContent := decide (j = 0),
                         postFile := toolsFile j, entrypoint := c0, args := cs ++ s.Args } := by
  obtain ⟨_, hget⟩ := wrapSteps_get st steps 0 ws h
  obtain ⟨w, hw, hwrap⟩ := hget j s hj
  rw [Nat.zero_add, wrapStep_ok st j s c0 cs hc] at hwrap
  simp only [Except.ok.injEq] at hwrap
  subst hwrap
  refine ⟨_, hw, rfl, rfl, ?_⟩
  exact parseFlags_wrapped j c0 (cs ++ s.Args)

/-- C4: for a non-empty list of steps that all have a command, the builder
succeeds with one init container and as many wrapped steps as there are steps;
wrapped step 0 waits on `/tekton/downward/ready` with the content flag set;
wrapped step `i` posts `/tekton/tools/i`; and for `1 ≤ i`, wrapped step `i`
waits on the post file of wrapped step `i - 1`, without the content flag. -/
theorem C4_chain_of_wait_and_post_files (st : Staging) (entrypointImage : String)
    (steps : List Container) (hne : steps ≠ []) (hcmd : ∀ s ∈ steps, s.Command ≠ []) :
    ∃ init wrapped, orderContainers st entrypointImage steps = Except.ok (init, wrapped) ∧
      init = { Name := "place-tools", Image := entrypointImage,
               Command := ["cp", "/ko-app/entrypoint", st.entrypointBinary],
               VolumeMounts := [st.toolsMount] } ∧
      wrapped.length = steps.length ∧
      (∃ c w, wrapped[0]? = some c ∧ c.wrapped = some w ∧
        w.waitFile = "/tekton/downward/ready" ∧ w.waitFileContent = true) ∧
      (∀ i, i < steps.length → ∃ c w, wrapped[i]? = some c ∧ c.wrapped = some w ∧
        w.postFile = "/tekton/tools/" ++ toString i) ∧
      (∀ i, 1 ≤ i → i < steps.length → ∃ c w p wp,
        wrapped[i]? = some c ∧ c.wrapped = some w ∧
        wrapped[i - 1]? = some p ∧ p.wrapped = some wp ∧
        w.waitFile = wp.postFile ∧ w.waitFileContent = false) := by
  obtain ⟨ws, hws⟩ := wrapSteps_ok st steps 0 hcmd
  have hat : ∀ i, i < steps.length → ∃ s c0 cs, steps[i]? = some s ∧ s.Command = c0 :: cs := by
    intro i hi
    have hs : steps[i]? = some steps[i] := List.getElem?_eq_getElem hi
    have hmem : steps[i] ∈ steps := List.getElem_mem hi
    have hc := hcmd _ hmem
    cases hcm : steps[i].Command with
    | nil => exact absurd hcm hc
    | cons c0 cs => exact ⟨_, c0, cs, hs, hcm⟩
  have hpos : 0 < steps.length := List.length_pos.2 hne
  refine ⟨toolsInit st entrypointImage, ws, ?_, rfl, (wrapSteps_get st steps 0 ws hws).1,
    ?_, ?_, ?_⟩
  · simp [orderContainers, hws]
  · obtain ⟨s, c0, cs, hs, hc⟩ := hat 0 hpos
    obtain ⟨c, hget, _, _, hw⟩ := wrapped_of_step st steps ws 0 s c0 cs hws hs hc
    exact ⟨c, _, hget, hw, rfl, rfl⟩
  · intro i hi
    obtain ⟨s, c0, cs, hs, hc⟩ := hat i hi
    obtain ⟨c, hget, _, _, hw⟩ := wrapped_of_step st steps ws i s c0 cs hws hs hc
    exact ⟨c, _, hget, hw, rfl⟩
  · intro i h1 hi
    obtain ⟨s, c0, cs, hs, hc⟩ := hat i hi
    obtain ⟨c, hget, _, _, hw⟩ := wrapped_of_step st steps ws i s c0 cs hws hs hc
    obtain ⟨s2, d0, ds, hs2, hc2⟩ := hat (i - 1) (by omega)
    obtain ⟨p, hgetp, _, _, hwp⟩ := wrapped_of_step st steps ws (i - 1) s2 d0 ds hws hs2 hc2
    refine ⟨c, _, p, _, hget, hw, hgetp, hwp, ?_, ?_⟩
    · have : i ≠ 0 := by omega
      simp [this]
    · have : i ≠ 0 := by omega
      simp [this]

/-- Witness for C4: the three steps of `TestOrderContainers`. -/
theorem C4_chain_of_wait_and_post_files_witness :
    testSteps ≠ [] ∧ (∀ s ∈ testSteps, s.Command ≠ []) ∧
    ∃ init wrapped, orderContainers tektonStaging "entrypoint-image" testSteps
        = Except.ok (init, wrapped) ∧
      init = { Name := "place-tools", Image := "entrypoint-image",
               Command := ["cp", "/ko-app/entrypoint", tektonStaging.entrypointBinary],
               VolumeMounts := [tektonStaging.toolsMount] } ∧
      wrapped.length = testSteps.length ∧
      (∃ c w, wrapped[0]? = some c ∧ c.wrapped = some w ∧
        w.waitFile = "/tekton/downward/ready" ∧ w.waitFileContent = true) ∧
      (∀ i, i < testSteps.length → ∃ c w, wrapped[i]? = some c ∧ c.wrapped = some w ∧
        w.postFile = "/tekton/tools/" ++ toString i) ∧
      (∀ i, 1 ≤ i → i < testSteps.length → ∃ c w p wp,
        wrapped[i]? = some c ∧ c.wrapped = some w ∧
        wrapped[i - 1]? = some p ∧ p.wrapped = some wp ∧
        w.waitFile = wp.postFile ∧ w.waitFileContent = false) :=
  ⟨by decide, by decide,
    C4_chain_of_wait_and_post_files tektonStaging "entrypoint-image" testSteps
      (by decide) (by decide)⟩

/-- C5: in a chain the builder produced, the step at index `j` with original
Command `c0 :: cs` and Args `a` is wrapped with Command equal to the single
staged entrypoint binary and Args equal to the wait and post flags, then
`-entrypoint c0 --`, then `cs ++ a`; read back, the entrypoint is `c0`, the
arguments after the separator are `cs ++ a`, and entrypoint and arguments
together are the original Command followed by the original Args. -/
theorem C5_command_and_args_round_trip (st : Staging) (entrypointImage : String)
    (steps : List Container) (init : Container) (wrapped : List Container)
    (j : Nat) (s : Container) (c0 : String) (cs : List String)
    (hbuild : orderContainers st entrypointImage steps = Except.ok (init, wrapped))
    (hj : steps[j]? = some s) (hcmd : s.Command = c0 :: cs) :
    ∃ c w, wrapped[j]? = some c ∧ c.Command = [st.entrypointBinary] ∧
      c.Args = waitPostFlags j ++ ["-entrypoint", c0, "--"] ++ (cs ++ s.Args) ∧
      "--" ∉ waitPostFlags j ∧ "-entrypoint" ∉ waitPostFlags j ∧
      c.wrapped = some w ∧ w.entrypoint = c0 ∧ w.args = cs ++ s.Args ∧
      w.entrypoint :: w.args = s.Command ++ s.Args := by
  have hws : wrapSteps st 0 steps = Except.ok wrapped := by
    unfold orderContainers at hbuild
    cases h : wrapSteps st 0 steps with
    | error err => simp [h] at hbuild
    | ok ws =>
      simp only [h, Except.ok.injEq, Prod.mk.injEq] at hbuild
      rw [hbuild.2]
  obtain ⟨c, hget, hcom, hargs, hw⟩ := wrapped_of_step st steps wrapped j s c0 cs hws hj hcmd
  have hflags : "--" ∉ waitPostFlags j ∧ "-entrypoint" ∉ waitPostFlags j := by
    have hfile : ∀ (t : String), t.length < 14 → ∀ n : Nat, t ≠ toolsFile n := by
      intro t ht n heq
      have := congrArg String.length heq
      simp [toolsFile, String.length_append] at this
      have h14 : "/tekton/tools/".length = 14 := by decide
      omega
    have h1 := hfile "--" (by decide)
    have h2 := hfile "-entrypoint" (by decide)
    cases j with
    | zero =>
      simp only [waitPostFlags, List.mem_cons, List.mem_singleton, List.not_mem_nil, or_false,
        not_or]
      exact ⟨⟨by decide, by decide, by decide, by decide, h1 0⟩,
        ⟨by decide, by decide, by decide, by decide, h2 0⟩⟩
    | succ k =>
      simp only [waitPostFlags, List.mem_cons, List.mem_singleton, List.not_mem_nil, or_false,
        not_or]
      exact ⟨⟨by decide, h1 k, by decide, h1 (k + 1)⟩,
        ⟨by decide, h2 k, by decide, h2 (k + 1)⟩⟩
  exact ⟨c, _, hget, hcom, hargs, hflags.1, hflags.2, hw, rfl, rfl, by rw [hcmd]; rfl⟩

/-- Witness for C5: the second step of `TestOrderContainers`, whose command has three elements. -/
theorem C5_command_and_args_round_trip_witness :
    ∃ c w, testWant[1]? = some c ∧ c.Command = [tektonStaging.entrypointBinary] ∧
      c.Args = waitPostFlags 1 ++ ["-entrypoint", "cmd1", "--"] ++
        (["cmd2", "cmd3"] ++ ["arg1", "arg2"]) ∧
      "--" ∉ waitPostFlags 1 ∧ "-entrypoint" ∉ waitPostFlags 1 ∧
      c.wrapped = some w ∧ w.entrypoint = "cmd1" ∧
      w.args = ["cmd2", "cmd3"] ++ ["arg1", "arg2"] ∧
      w.entrypoint :: w.args = ["cmd1", "cmd2", "cmd3"] ++ ["arg1", "arg2"] :=
  C5_command_and_args_round_trip tektonStaging "entrypoint-image" testSteps
    (toolsInit tektonStaging "entrypoint-image") testWant 1
    { Image := "step-2", Command := ["cmd1", "cmd2", "cmd3"], Args := ["arg1", "arg2"],
      VolumeMounts := [volumeMount] } "cmd1" ["cmd2", "cmd3"] (by rfl) (by rfl) (by rfl)

/-! ## The sidecar stopper -/

/-- The model of the stopper produces what `TestStopSidecars` expects in its
three cases. -/
theorem StopSidecars_test :
    (StopSidecars "nop-image" runningSidecarPod).1 = [stepContainer, stoppedSidecarContainer] ∧
    (StopSidecars "nop-image" pendingPod).1 = [stepContainer, sidecarContainer] ∧
    (StopSidecars "nop-image" waitingSidecarPod).1 = [stepContainer, sidecarContainer] := by
  decide

/-- C6: `StopSidecars` keeps the number and order of the containers.  A
container is changed only if the pod's phase is Running, its name has the
sidecar prefix and its live status reports Running; such a container gets the
no-op image and keeps every other field (name, command, args, env, volume
mounts); every other container is returned as it was. -/
theorem C6_stop_sidecars_frame (nopImage : String) (pod : Pod) :
    (StopSidecars nopImage pod).1.length = pod.Containers.length ∧
    ∀ (i : Nat) (c : Container), pod.Containers[i]? = some c →
      ∃ c2 : Container, (StopSidecars nopImage pod).1[i]? = some c2 ∧
        c2.Name = c.Name ∧ c2.Command = c.Command ∧ c2.Args = c.Args ∧ c2.Env = c.Env ∧
        c2.VolumeMounts = c.VolumeMounts ∧
        (pod.Phase = PodPhase.Running ∧ IsContainerSidecar c.Name = true ∧
            reportsRunning pod c.Name = true → c2 = { c with Image := nopImage }) ∧
        (¬ (pod.Phase = PodPhase.Running ∧ IsContainerSidecar c.Name = true ∧
            reportsRunning pod c.Name = true) → c2 = c) := by
  unfold StopSidecars
  by_cases hph : pod.Phase = PodPhase.Running
  · simp only [hph, if_true, List.length_map, true_and]
    intro i c hi
    by_cases hcond : (IsContainerSidecar c.Name && reportsRunning pod c.Name) = true
    · refine ⟨{ c with Image := nopImage }, ?_, rfl, rfl, rfl, rfl, rfl, fun _ => rfl, ?_⟩
      · rw [List.getElem?_map, hi, Option.map_some', if_pos hcond]
      · intro hn
        simp only [Bool.and_eq_true] at hcond
        exact absurd hcond hn
    · refine ⟨c, ?_, rfl, rfl, rfl, rfl, rfl, ?_, fun _ => rfl⟩
      · rw [List.getElem?_map, hi, Option.map_some', if_neg hcond]
      · intro hy
        simp only [Bool.and_eq_true] at hcond
        exact absurd hy hcond
  · simp only [hph, if_false, false_and, true_and]
    intro i c hi
    exact ⟨c, hi, rfl, rfl, rfl, rfl, rfl, fun h => absurd h (by simp), fun _ => rfl⟩

/-- Witness for C6: the running sidecar of `TestStopSidecars` gets the no-op image and keeps its other fields. -/
theorem C6_stop_sidecars_frame_witness :
    runningSidecarPod.Containers[1]? = some sidecarContainer ∧
    (runningSidecarPod.Phase = PodPhase.Running ∧
      IsContainerSidecar sidecarContainer.Name = true ∧
      reportsRunning runningSidecarPod sidecarContainer.Name = true) ∧
    ∃ c2 : Container, (StopSidecars "nop-image" runningSidecarPod).1[1]? = some c2 ∧
      c2.Name = sidecarContainer.Name ∧ c2.Command = sidecarContainer.Command ∧
      c2.Args = sidecarContainer.Args ∧ c2.Env = sidecarContainer.Env ∧
      c2.VolumeMounts = sidecarContainer.VolumeMounts ∧
      (runningSidecarPod.Phase = PodPhase.Running ∧
          IsContainerSidecar sidecarContainer.Name = true ∧
          reportsRunning runningSidecarPod sidecarContainer.Name = true →
        c2 = { sidecarContainer with Image := "nop-image" }) ∧
      (¬ (runningSidecarPod.Phase = PodPhase.Running ∧
          IsContainerSidecar sidecarContainer.Name = true ∧
          reportsRunning runningSidecarPod sidecarContainer.Name = true) →
        c2 = sidecarContainer) :=
  ⟨by decide, by decide,
    (C6_stop_sidecars_frame "nop-image" runningSidecarPod).2 1 sidecarContainer (by decide)⟩

end Tekton
